import Mathlib

/-!
Shallow embedding of the ushio replay/diff core (src/replay.rs, src/diff.rs)
and proofs about the behavioral contracts of its replay engine, header
mutator, URL rewriter, WAF heuristic classifier and diff engine.

Machine integers (`u16`, `usize`, `u64`) are modeled as `Nat`: the code never
performs arithmetic that could overflow them (statuses, counts and lengths are
only copied, compared and incremented well below the bounds).

Case-insensitive string handling in the source uses Rust's
`eq_ignore_ascii_case` and `to_lowercase`; header names in this domain are
ASCII, and both are modeled by ASCII lowercasing.
-/

namespace Ushio

/-- ASCII lowercasing of one character, the model of Rust ASCII case folding. -/
def asciiLowerChar (c : Char) : Char :=
  if 'A' ≤ c ∧ c ≤ 'Z' then Char.ofNat (c.toNat + 32) else c

/-- ASCII lowercasing of a string (model of `to_lowercase` /
`to_ascii_lowercase` on the ASCII header names this tool deals with). -/
def asciiLower (s : String) : String :=
  ⟨s.data.map asciiLowerChar⟩

/-- Model of Rust `str::eq_ignore_ascii_case`. -/
def eqIgnoreAsciiCase (a b : String) : Bool :=
  asciiLower a == asciiLower b

/-- Model of Rust `str::starts_with` on strings. -/
def startsWithStr (s p : String) : Bool :=
  p.data.isPrefixOf s.data

/-! ## URL model

The source delegates URL handling to the `url` crate. The model below covers
the absolute `http`/`https` URLs this tool replays: `Url::parse` on
`scheme://host[:port][/path][?query][#fragment]`, with the crate's
normalizations that matter here: scheme and host are lowercased, an empty path
becomes `/`, and a port equal to the scheme's default is elided (so `port()`
returns `None` for it, exactly as `url::Url::port` does). For such URLs
`set_scheme`, `set_host` and `set_port` (whose `Result`s the source discards
with `.ok()`) always succeed. -/

structure Url where
  scheme : String
  host : String
  port : Option Nat
  path : String
  query : Option String
  fragment : Option String
deriving Repr, DecidableEq

/-- Split a character list at the first character satisfying one of the
stop characters; the second component starts with the stop character. -/
def takeUntil (stops : List Char) : List Char → List Char × List Char
  | [] => ([], [])
  | c :: rest =>
    if c ∈ stops then ([], c :: rest)
    else
      let (tk, rem) := takeUntil stops rest
      (c :: tk, rem)

/-- Default port of a scheme, as the `url` crate knows it. -/
def defaultPort (scheme : String) : Option Nat :=
  if scheme = "http" then some 80
  else if scheme = "https" then some 443
  else none

/-- Digits of a decimal port. -/
def digitsToNat (ds : List Char) : Nat :=
  ds.foldl (fun n c => n * 10 + (c.toNat - 48)) 0

/-- Parse the port section of an authority (`[]` or `':' :: digits`).
Returns `none` on an invalid port, `some p` with the explicit port
(`p = none` for an empty port, as in the `url` crate). -/
def parsePortSection : List Char → Option (Option Nat)
  | [] => some none
  | ':' :: ds =>
    if ds = [] then some none
    else if ds.all Char.isDigit then
      if digitsToNat ds < 65536 then some (some (digitsToNat ds)) else none
    else none
  | _ => none

/-- Core of `Url.parse` over the character list of the input. -/
def parseUrlChars (cs : List Char) : Option Url :=
  let (schemeCs, rest1) := takeUntil [':'] cs
  match rest1 with
  | ':' :: '/' :: '/' :: rest2 =>
    let scheme := asciiLower ⟨schemeCs⟩
    if scheme = "http" ∨ scheme = "https" then
      let (authCs, rest3) := takeUntil ['/', '?', '#'] rest2
      let (hostCs, portSection) := takeUntil [':'] authCs
      if hostCs = [] ∨ hostCs.any (fun c => c = '@') then none
      else
        match parsePortSection portSection with
        | none => none
        | some rawPort =>
          let port : Option Nat :=
            match rawPort with
            | none => none
            | some p => if defaultPort scheme = some p then none else some p
          let (pathCs, rest4) := takeUntil ['?', '#'] rest3
          let path : String := if pathCs = [] then "/" else ⟨pathCs⟩
          let (query, rest5) : Option String × List Char :=
            match rest4 with
            | '?' :: qrest =>
              let (qCs, r) := takeUntil ['#'] qrest
              (some ⟨qCs⟩, r)
            | other => (none, other)
          let fragment : Option String :=
            match rest5 with
            | '#' :: frest => some ⟨frest⟩
            | _ => none
          some { scheme := scheme, host := asciiLower ⟨hostCs⟩, port := port,
                 path := path, query := query, fragment := fragment }
    else none
  | _ => none

/-- Model of `url::Url::parse` on the absolute http/https URLs of this
tool's domain. -/
def Url.parse (s : String) : Option Url :=
  parseUrlChars s.data

/-- Model of `url::Url::to_string` / `Display` for the URLs above. -/
def Url.toString (u : Url) : String :=
  u.scheme ++ "://" ++ u.host ++
    (match u.port with
     | some p => ":" ++ Nat.repr p
     | none => "") ++
    u.path ++
    (match u.query with
     | some q => "?" ++ q
     | none => "") ++
    (match u.fragment with
     | some f => "#" ++ f
     | none => "")

/-- `rewrite_url` from src/replay.rs: parse the original URL, then replace
scheme, host and port with the target's (on the modeled http/https URLs the
three `set_*` calls, whose errors the source discards with `.ok()`, always
succeed), keeping the original's path, query and fragment. -/
def rewrite_url (original : String) (target : Url) : Except String String :=
  match Url.parse original with
  | none => Except.error "Invalid original URL"
  | some u =>
    Except.ok (Url.toString
      { u with scheme := target.scheme, host := target.host, port := target.port })

/-! ## Replay engine (src/replay.rs) -/

/-- `CapturedRequest` from src/capture.rs. -/
structure CapturedRequest where
  method : String
  url : String
  headers : List (String × String)
  body : Option String
  expected_status : Option Nat
deriving Repr, DecidableEq

/-- `ReplayConfig` from src/replay.rs (the `Duration` timeout modeled in
milliseconds; it only parameterizes the transport). -/
structure ReplayConfig where
  timeout_ms : Nat
  concurrency : Nat
  header_mutations : List (String × String)
  strip_cookies : Bool
deriving Repr, DecidableEq

/-- The `Default` impl of `ReplayConfig`. -/
def ReplayConfig.default : ReplayConfig :=
  { timeout_ms := 30000, concurrency := 1, header_mutations := [], strip_cookies := false }

/-- `ReplayResult` from src/replay.rs. -/
structure ReplayResult where
  request_index : Nat
  method : String
  url : String
  status : Nat
  headers : List (String × String)
  body_size : Nat
  duration_ms : Nat
  expected_status : Option Nat
  status_match : Bool
  error : Option String
deriving Repr, DecidableEq

/-- `ReplaySession` from src/replay.rs. The wall-clock `timestamp` field is
outside the embedding (it carries no behavioral contract). -/
structure ReplaySession where
  target : String
  total_requests : Nat
  successful : Nat
  failed : Nat
  status_mismatches : Nat
  results : List ReplayResult
deriving Repr, DecidableEq

/-- Observable outcome of one HTTP exchange, as the source reads it off the
`reqwest` response: final status, response headers, body length and elapsed
milliseconds. -/
structure HttpResponse where
  status : Nat
  headers : List (String × String)
  body_size : Nat
  duration_ms : Nat
deriving Repr, DecidableEq

/-- The network transport as an oracle: for each request position, either the
observed response or `none` for a transport-level failure (connection, TLS,
timeout, malformed response). The replay engine issues requests strictly
sequentially, so the exchange at each index is a function of that index. -/
def Transport : Type :=
  Nat → Option HttpResponse

/-- The header filter inside `apply_mutations`: drop `Cookie` when stripping
cookies, and always drop `Host` and `Content-Length`. -/
def keepHeader (strip_cookies : Bool) (p : String × String) : Bool :=
  let nameLower := asciiLower p.1
  if strip_cookies && nameLower == "cookie" then false
  else if nameLower == "host" then false
  else if nameLower == "content-length" then false
  else true

/-- One mutation step of `apply_mutations`: an empty value removes every
header with that name (case-insensitive); a non-empty value replaces the
first header with that name, or appends when absent. -/
def applyMutation (result : List (String × String)) (m : String × String) :
    List (String × String) :=
  if m.2 = "" then
    result.filter (fun p => !(eqIgnoreAsciiCase p.1 m.1))
  else
    match result.findIdx? (fun p => eqIgnoreAsciiCase p.1 m.1) with
    | some idx => result.set idx m
    | none => result ++ [m]

/-- `apply_mutations` from src/replay.rs. -/
def apply_mutations (headers mutations : List (String × String))
    (strip_cookies : Bool) : List (String × String) :=
  mutations.foldl applyMutation (headers.filter (keepHeader strip_cookies))

/-- An HTTP token character (RFC 7230), the byte class `http::Method` and
`http::HeaderName` accept; 39 is the apostrophe and 96 the grave accent. -/
def isTokenChar (c : Char) : Bool :=
  c.isAlphanum ||
    ['!', '#', '$', '%', '&', '*', '+', '-', '.', '^', '_', '|', '~'].contains c ||
    c.toNat = 39 || c.toNat = 96

/-- Validity of `request.method.parse::<reqwest::Method>()`: a non-empty
token. -/
def isValidMethod (m : String) : Bool :=
  m.length > 0 && m.data.all isTokenChar

/-- Validity of `HeaderName::from_str`: a non-empty token. -/
def isValidHeaderName (n : String) : Bool :=
  n.length > 0 && n.data.all isTokenChar

/-- Validity of `HeaderValue::from_str`: visible characters, space and tab. -/
def isValidHeaderValue (v : String) : Bool :=
  v.data.all (fun c => c.toNat = 9 || (32 ≤ c.toNat && c.toNat ≠ 127))

/-- `build_header_map` from src/replay.rs, reduced to its fallible part: the
`HeaderMap` value itself is consumed only by the transport, so the model
keeps the error behavior (first invalid name or value, in order). -/
def build_header_map : List (String × String) → Except String Unit
  | [] => Except.ok ()
  | (name, value) :: rest =>
    if !(isValidHeaderName name) then Except.error ("Invalid header name: " ++ name)
    else if !(isValidHeaderValue value) then Except.error ("Invalid header value for " ++ name)
    else build_header_map rest

/-- The `ReplayResult` that `replay_single` builds from a received response. -/
def successResult (request : CapturedRequest) (index : Nat) (url : String)
    (resp : HttpResponse) : ReplayResult :=
  { request_index := index
    method := request.method
    url := url
    status := resp.status
    headers := resp.headers
    body_size := resp.body_size
    duration_ms := resp.duration_ms
    expected_status := request.expected_status
    status_match :=
      match request.expected_status with
      | some expected => expected == resp.status
      | none => true
    error := none }

/-- `replay_single` from src/replay.rs: rewrite the URL, mutate the headers,
build the header map, parse the method, then perform the exchange. Each
failing stage surfaces as `Except.error` with the message its `anyhow`
context displays. -/
def replay_single (request : CapturedRequest) (index : Nat) (target_url : Url)
    (config : ReplayConfig) (net : Option HttpResponse) : Except String ReplayResult :=
  match rewrite_url request.url target_url with
  | Except.error e => Except.error e
  | Except.ok url =>
    match build_header_map
        (apply_mutations request.headers config.header_mutations config.strip_cookies) with
    | Except.error e => Except.error e
    | Except.ok _ =>
      if isValidMethod request.method then
        match net with
        | none => Except.error "Request failed"
        | some resp => Except.ok (successResult request index url resp)
      else Except.error "Invalid HTTP method"

/-- The fallback `ReplayResult` that `replay` records when `replay_single`
fails (the `unwrap_or_else` closure at src/replay.rs:100). -/
def fallbackResult (request : CapturedRequest) (index : Nat) (target_url : Url)
    (e : String) : ReplayResult :=
  { request_index := index
    method := request.method
    url :=
      match rewrite_url request.url target_url with
      | Except.ok u => u
      | Except.error _ => request.url
    status := 0
    headers := []
    body_size := 0
    duration_ms := 0
    expected_status := request.expected_status
    status_match := false
    error := some e }

/-- The record `replay` pushes for one request: the successful result, or the
fallback on error. -/
def replayRecord (request : CapturedRequest) (index : Nat) (target_url : Url)
    (config : ReplayConfig) (net : Option HttpResponse) : ReplayResult :=
  match replay_single request index target_url config net with
  | Except.ok r => r
  | Except.error e => fallbackResult request index target_url e

/-- The request loop of `replay`: results in strict index order together with
the `(successful, failed, status_mismatches)` tallies, accumulated exactly as
the source's `match &result` does. -/
def replayLoop (config : ReplayConfig) (target_url : Url) (net : Transport) :
    List CapturedRequest → Nat → List ReplayResult × Nat × Nat × Nat
  | [], _ => ([], 0, 0, 0)
  | request :: rest, index =>
    let single := replay_single request index target_url config (net index)
    let t : Nat × Nat × Nat :=
      match single with
      | Except.ok r =>
        if r.error.isSome then (0, 1, 0)
        else (1, 0, if r.status_match then 0 else 1)
      | Except.error _ => (0, 1, 0)
    let tail := replayLoop config target_url net rest (index + 1)
    (replayRecord request index target_url config (net index) :: tail.1,
     t.1 + tail.2.1, t.2.1 + tail.2.2.1, t.2.2 + tail.2.2.2)

/-- `replay` from src/replay.rs: validate the target URL up front, then
replay every request sequentially, isolating per-request failures into their
results. -/
def replay (requests : List CapturedRequest) (target : String)
    (config : ReplayConfig) (net : Transport) : Except String ReplaySession :=
  match Url.parse target with
  | none => Except.error "Invalid target URL"
  | some target_url =>
    let out := replayLoop config target_url net requests 0
    Except.ok
      { target := target
        total_requests := requests.length
        successful := out.2.1
        failed := out.2.2.1
        status_mismatches := out.2.2.2
        results := out.1 }

/-! ## Diff engine (src/diff.rs) -/

/-- `HeaderDiffType` from src/diff.rs. -/
inductive HeaderDiffType where
  | Added
  | Removed
  | Changed
deriving Repr, DecidableEq

/-- `HeaderDiff` from src/diff.rs. -/
structure HeaderDiff where
  name : String
  left : Option String
  right : Option String
  diff_type : HeaderDiffType
deriving Repr, DecidableEq

/-- `StatusDiff` from src/diff.rs. -/
structure StatusDiff where
  left : Nat
  right : Nat
deriving Repr, DecidableEq

/-- `WafDiff` from src/diff.rs. -/
structure WafDiff where
  left_blocked : Bool
  right_blocked : Bool
  left_reason : Option String
  right_reason : Option String
deriving Repr, DecidableEq

/-- `RequestDiff` from src/diff.rs. -/
structure RequestDiff where
  request_index : Nat
  method : String
  url : String
  status_diff : Option StatusDiff
  header_diffs : List HeaderDiff
  waf_diff : Option WafDiff
deriving Repr, DecidableEq

/-- `DiffSummary` from src/diff.rs. -/
structure DiffSummary where
  left_target : String
  right_target : String
  total_requests : Nat
  identical : Nat
  different : Nat
  status_diffs : Nat
  header_diffs : Nat
  waf_diffs : Nat
  diffs : List RequestDiff
deriving Repr, DecidableEq

/-- `COMPARE_HEADERS` from src/diff.rs: the fixed comparison set. -/
def COMPARE_HEADERS : List String :=
  ["x-waf-action", "x-waf-rule", "x-waf-score", "cf-ray", "cf-cache-status",
   "x-cache", "x-cache-status", "x-blocked", "x-blocked-by", "server",
   "x-frame-options", "content-security-policy", "strict-transport-security",
   "x-content-type-options"]

/-- `find_header` from src/diff.rs: first value under a case-insensitive
name. -/
def find_header (headers : List (String × String)) (name : String) : Option String :=
  (headers.find? (fun p => eqIgnoreAsciiCase p.1 name)).map (fun p => p.2)

/-- One iteration of the `diff_headers` loop over `COMPARE_HEADERS`. -/
def diffHeaderStep (left right : List (String × String)) (acc : List HeaderDiff)
    (name : String) : List HeaderDiff :=
  match find_header left name, find_header right name with
  | some l, some r =>
    if l ≠ r then
      acc ++ [{ name := name, left := some l, right := some r,
                diff_type := HeaderDiffType.Changed }]
    else acc
  | some l, none =>
    acc ++ [{ name := name, left := some l, right := none,
              diff_type := HeaderDiffType.Removed }]
  | none, some r =>
    acc ++ [{ name := name, left := none, right := some r,
              diff_type := HeaderDiffType.Added }]
  | none, none => acc

/-- `diff_headers` from src/diff.rs. -/
def diff_headers (left right : List (String × String)) : List HeaderDiff :=
  COMPARE_HEADERS.foldl (diffHeaderStep left right) []

/-- `is_waf_block` from src/diff.rs: blocked iff the status is 403, 429 or
503, or some header name (lowercased) starts with `x-waf-` or `x-blocked`. -/
def is_waf_block (result : ReplayResult) : Bool :=
  if result.status = 403 ∨ result.status = 429 ∨ result.status = 503 then true
  else
    result.headers.any (fun p =>
      startsWithStr (asciiLower p.1) "x-waf-" || startsWithStr (asciiLower p.1) "x-blocked")

/-- The `reason_headers` priority list of `get_waf_reason`. -/
def reasonHeaders : List String :=
  ["x-waf-rule", "x-waf-action", "x-blocked-by", "x-blocked"]

/-- The `for header in reason_headers` loop of `get_waf_reason`. -/
def firstReasonHeader (headers : List (String × String)) : List String → Option String
  | [] => none
  | h :: rest =>
    match find_header headers h with
    | some v => some (h ++ ": " ++ v)
    | none => firstReasonHeader headers rest

/-- `get_waf_reason` from src/diff.rs. -/
def get_waf_reason (result : ReplayResult) : Option String :=
  match firstReasonHeader result.headers reasonHeaders with
  | some s => some s
  | none =>
    if result.status = 403 ∨ result.status = 429 ∨ result.status = 503 then
      some ("HTTP " ++ Nat.repr result.status)
    else none

/-- `detect_waf_diff` from src/diff.rs. -/
def detect_waf_diff (left right : ReplayResult) : Option WafDiff :=
  let left_blocked := is_waf_block left
  let right_blocked := is_waf_block right
  if left_blocked = right_blocked then none
  else
    some { left_blocked := left_blocked, right_blocked := right_blocked,
           left_reason := get_waf_reason left, right_reason := get_waf_reason right }

/-- `diff_results` from src/diff.rs. -/
def diff_results (left right : ReplayResult) : Option RequestDiff :=
  let status_diff : Option StatusDiff :=
    if left.status ≠ right.status then
      some { left := left.status, right := right.status }
    else none
  let header_diffs := diff_headers left.headers right.headers
  let waf_diff := detect_waf_diff left right
  if status_diff = none ∧ header_diffs = [] ∧ waf_diff = none then none
  else
    some { request_index := left.request_index
           method := left.method
           url := left.url
           status_diff := status_diff
           header_diffs := header_diffs
           waf_diff := waf_diff }

/-- Accumulator of the `diff_sessions` loop. -/
structure DiffState where
  diffs : List RequestDiff
  identical : Nat
  different : Nat
  status_diffs : Nat
  header_diffs : Nat
  waf_diffs : Nat
deriving Repr, DecidableEq

/-- One iteration of the `for i in 0..max_len` loop of `diff_sessions`. -/
def diffStep (leftResults rightResults : List ReplayResult) (s : DiffState)
    (i : Nat) : DiffState :=
  match leftResults.get? i, rightResults.get? i with
  | some l, some r =>
    match diff_results l r with
    | some d =>
      { s with
        status_diffs := s.status_diffs + (if d.status_diff.isSome then 1 else 0)
        header_diffs := s.header_diffs + (if d.header_diffs.isEmpty then 0 else 1)
        waf_diffs := s.waf_diffs + (if d.waf_diff.isSome then 1 else 0)
        different := s.different + 1
        diffs := s.diffs ++ [d] }
    | none => { s with identical := s.identical + 1 }
  | some l, none =>
    { s with
      different := s.different + 1
      diffs := s.diffs ++
        [{ request_index := i, method := l.method, url := l.url,
           status_diff := some { left := l.status, right := 0 },
           header_diffs := [], waf_diff := none }] }
  | none, some r =>
    { s with
      different := s.different + 1
      diffs := s.diffs ++
        [{ request_index := i, method := r.method, url := r.url,
           status_diff := some { left := 0, right := r.status },
           header_diffs := [], waf_diff := none }] }
  | none, none => s

/-- `diff_sessions` from src/diff.rs. -/
def diff_sessions (left right : ReplaySession) : DiffSummary :=
  let max_len := max left.results.length right.results.length
  let st := (List.range max_len).foldl (diffStep left.results right.results)
    { diffs := [], identical := 0, different := 0,
      status_diffs := 0, header_diffs := 0, waf_diffs := 0 }
  { left_target := left.target
    right_target := right.target
    total_requests := max_len
    identical := st.identical
    different := st.different
    status_diffs := st.status_diffs
    header_diffs := st.header_diffs
    waf_diffs := st.waf_diffs
    diffs := st.diffs }

/-! ## Derived descriptions used by the theorems -/

/-- Specification-side description of the WAF reason header search: the first
header of the priority list that is present, formatted `"<header>: <value>"`. -/
def wafReasonSpec (result : ReplayResult) : Option String :=
  (reasonHeaders.find? (fun h => (find_header result.headers h).isSome)).map
    (fun h => h ++ ": " ++ ((find_header result.headers h).getD ""))

/-- The diff `diff_sessions` derives for the pair at index `i`: `diff_results`
when both sides are present, a one-sided diff with sentinel status 0 when only
one side is, nothing when neither is. -/
def pairDiff (leftResults rightResults : List ReplayResult) (i : Nat) :
    Option RequestDiff :=
  match leftResults.get? i, rightResults.get? i with
  | some l, some r => diff_results l r
  | some l, none =>
    some { request_index := i, method := l.method, url := l.url,
           status_diff := some { left := l.status, right := 0 },
           header_diffs := [], waf_diff := none }
  | none, some r =>
    some { request_index := i, method := r.method, url := r.url,
           status_diff := some { left := 0, right := r.status },
           header_diffs := [], waf_diff := none }
  | none, none => none

/-- Whether the pair at index `i` counts toward `identical`. -/
def pairIdentical (L R : List ReplayResult) (i : Nat) : Bool :=
  match L.get? i, R.get? i with
  | some l, some r => (diff_results l r).isNone
  | _, _ => false

/-- Whether the pair at index `i` increments `status_diffs`. -/
def pairStatusBump (L R : List ReplayResult) (i : Nat) : Bool :=
  match L.get? i, R.get? i with
  | some l, some r =>
    match diff_results l r with
    | some d => d.status_diff.isSome
    | none => false
  | _, _ => false

/-- Whether the pair at index `i` increments `header_diffs`. -/
def pairHeaderBump (L R : List ReplayResult) (i : Nat) : Bool :=
  match L.get? i, R.get? i with
  | some l, some r =>
    match diff_results l r with
    | some d => !d.header_diffs.isEmpty
    | none => false
  | _, _ => false

/-- Whether the pair at index `i` increments `waf_diffs`. -/
def pairWafBump (L R : List ReplayResult) (i : Nat) : Bool :=
  match L.get? i, R.get? i with
  | some l, some r =>
    match diff_results l r with
    | some d => d.waf_diff.isSome
    | none => false
  | _, _ => false

/-! ## Concrete fixtures for witnesses and counterexamples -/

/-- A replay result in the shape of the source's unit-test fixture. -/
def exResult (status : Nat) (headers : List (String × String)) : ReplayResult :=
  { request_index := 0, method := "GET", url := "https://example.com/test",
    status := status, headers := headers, body_size := 0, duration_ms := 100,
    expected_status := some 200, status_match := status == 200, error := none }

/-- A well-formed captured GET request. -/
def reqGET : CapturedRequest :=
  { method := "GET", url := "https://a.com/p", headers := [], body := none,
    expected_status := none }

/-- A captured request whose method is not a valid HTTP token. -/
def reqBadMethod : CapturedRequest :=
  { method := "BAD METHOD", url := "https://a.com/p", headers := [], body := none,
    expected_status := none }

/-- A plain 200 response. -/
def resp200 : HttpResponse :=
  { status := 200, headers := [], body_size := 3, duration_ms := 5 }

/-- The parse of the target `https://b.com`. -/
def urlB : Url :=
  { scheme := "https", host := "b.com", port := none, path := "/", query := none,
    fragment := none }

/-- A session over an explicit result list with all requests successful. -/
def sessionOf (tgt : String) (rs : List ReplayResult) : ReplaySession :=
  { target := tgt, total_requests := rs.length, successful := rs.length,
    failed := 0, status_mismatches := 0, results := rs }

/-! ## Theorems -/

/-- Comparing a name against `"Cookie"` ignoring ASCII case is comparing its
ASCII lowercasing against `"cookie"`. -/
theorem eqIgnoreAsciiCase_cookie (a : String) :
    eqIgnoreAsciiCase a "Cookie" = (asciiLower a == "cookie") := rfl

/-- A header kept by the strip filter with cookie stripping on is not named
`cookie`. -/
theorem keepHeader_true_no_cookie (p : String × String)
    (h : keepHeader true p = true) : (asciiLower p.1 == "cookie") = false := by
  cases hc : (asciiLower p.1 == "cookie") with
  | false => rfl
  | true => simp [keepHeader, hc] at h

/-- Applying mutations preserves cookie-freedom as long as no mutation sets a
non-empty value under the name `cookie`. -/
theorem foldl_applyMutation_no_cookie :
    ∀ (mutations acc : List (String × String)),
      (∀ p ∈ acc, (asciiLower p.1 == "cookie") = false) →
      (∀ m ∈ mutations, m.2 ≠ "" → (asciiLower m.1 == "cookie") = false) →
      ∀ p ∈ mutations.foldl applyMutation acc, (asciiLower p.1 == "cookie") = false := by
  intro mutations
  induction mutations with
  | nil => intro acc hacc _ p hp; exact hacc p hp
  | cons m rest ih =>
    intro acc hacc hmut p hp
    simp only [List.foldl_cons] at hp
    refine ih (applyMutation acc m) ?_ (fun m' hm' => hmut m' (List.mem_cons_of_mem _ hm')) p hp
    intro q hq
    unfold applyMutation at hq
    split at hq
    · exact hacc q (List.mem_of_mem_filter hq)
    next hv =>
      split at hq
      next idx _ =>
        rcases List.mem_or_eq_of_mem_set hq with h1 | h2
        · exact hacc q h1
        · rw [h2]
          exact hmut m (List.mem_cons_self ..) hv
      · rcases List.mem_append.1 hq with h1 | h2
        · exact hacc q h1
        · have hqm : q = m := by simpa using h2
          rw [hqm]
          exact hmut m (List.mem_cons_self ..) hv

/-- C4 (amended): with `strip_cookies = true`, the output of `apply_mutations`
contains no header named `Cookie` (ASCII case-insensitive), provided no
mutation sets a non-empty value under the name `Cookie`; the proviso is
forced because a later mutation re-adds the header (see the
counterexample). -/
theorem apply_mutations_strip_cookies_spec (headers mutations : List (String × String))
    (hmut : ∀ m ∈ mutations, m.2 ≠ "" → eqIgnoreAsciiCase m.1 "Cookie" = false) :
    ∀ p ∈ apply_mutations headers mutations true, eqIgnoreAsciiCase p.1 "Cookie" = false := by
  intro p hp
  rw [eqIgnoreAsciiCase_cookie]
  refine foldl_applyMutation_no_cookie mutations _ ?_ ?_ p hp
  · intro q hq
    exact keepHeader_true_no_cookie q (List.of_mem_filter hq)
  · intro m hm hv
    rw [← eqIgnoreAsciiCase_cookie]
    exact hmut m hm hv

/-- Witness for C4: the source's own strip-cookies fixture. -/
theorem apply_mutations_strip_cookies_witness :
    eqIgnoreAsciiCase "Content-Type" "Cookie" = false :=
  apply_mutations_strip_cookies_spec
    [("Content-Type", "application/json"), ("Cookie", "session=abc123")] []
    (by intro m hm; exact absurd hm (List.not_mem_nil m))
    ("Content-Type", "application/json") (by decide)

/-- Counterexample for C4 as stated: with cookie stripping on, a mutation can
still put a `Cookie` header into the output. -/
theorem apply_mutations_strip_cookies_counterexample :
    apply_mutations [] [("Cookie", "a=b")] true = [("Cookie", "a=b")] ∧
    eqIgnoreAsciiCase "Cookie" "Cookie" = true := by decide

/-- C6: `rewrite_url` keeps the original's path, query and fragment and takes
the target's scheme, host and port (so when the target has no explicit port,
any port of the original is cleared); and the spec's concrete example holds. -/
theorem rewrite_url_spec :
    (∀ (orig : String) (u t : Url), Url.parse orig = some u →
      rewrite_url orig t = Except.ok (Url.toString
        { scheme := t.scheme, host := t.host, port := t.port,
          path := u.path, query := u.query, fragment := u.fragment })) ∧
    (Url.parse "https://b.com:8443").map (fun t => rewrite_url "https://a.com/p?q=1" t)
      = some (Except.ok "https://b.com:8443/p?q=1") := by
  constructor
  · intro orig u t h
    cases u
    simp [rewrite_url, h]
  · rfl

/-- Witness for C6: the spec's example, rewriting `https://a.com/p?q=1`
against the target `https://b.com:8443`. -/
theorem rewrite_url_spec_witness :
    rewrite_url "https://a.com/p?q=1"
      { scheme := "https", host := "b.com", port := some 8443, path := "/",
        query := none, fragment := none } =
    Except.ok (Url.toString
      { scheme := "https", host := "b.com", port := some 8443, path := "/p",
        query := some "q=1", fragment := none }) :=
  rewrite_url_spec.1 "https://a.com/p?q=1"
    { scheme := "https", host := "a.com", port := none, path := "/p",
      query := some "q=1", fragment := none }
    { scheme := "https", host := "b.com", port := some 8443, path := "/",
      query := none, fragment := none }
    (by decide)

/-- The `diff_headers` loop adds nothing for names whose values agree on both
sides. -/
theorem diffHeaderFold_eq_acc (left right : List (String × String)) :
    ∀ (names : List String) (acc : List HeaderDiff),
      (∀ name ∈ names, find_header left name = find_header right name) →
      names.foldl (diffHeaderStep left right) acc = acc := by
  intro names
  induction names with
  | nil => intro acc _; rfl
  | cons n rest ih =>
    intro acc h
    simp only [List.foldl_cons]
    have hn := h n (List.mem_cons_self ..)
    have hstep : diffHeaderStep left right acc n = acc := by
      unfold diffHeaderStep
      rw [hn]
      cases find_header right n with
      | none => rfl
      | some v => simp
    rw [hstep]
    exact ih acc (fun m hm => h m (List.mem_cons_of_mem _ hm))

/-- C1 (amended): two results that agree on status, on the value (or absence)
of every name of the fixed comparison set, and on the WAF blocked verdict
produce no `RequestDiff`; agreement on the verdict is forced because a header
outside the comparison set whose name starts with `x-waf-` or `x-blocked` can
flip the verdict on one side only (see the counterexample). -/
theorem diff_results_none_of_agreement (left right : ReplayResult)
    (hstatus : left.status = right.status)
    (hheaders : ∀ name ∈ COMPARE_HEADERS,
      find_header left.headers name = find_header right.headers name)
    (hwaf : is_waf_block left = is_waf_block right) :
    diff_results left right = none := by
  have h1 : diff_headers left.headers right.headers = [] :=
    diffHeaderFold_eq_acc _ _ COMPARE_HEADERS [] hheaders
  have h2 : detect_waf_diff left right = none := by
    unfold detect_waf_diff
    simp [hwaf]
  unfold diff_results
  simp [hstatus, h1, h2]

/-- Witness for C1: two results with equal status and equal security
headers. -/
theorem diff_results_none_of_agreement_witness :
    diff_results (exResult 200 [("server", "nginx")]) (exResult 200 [("server", "nginx")]) = none :=
  diff_results_none_of_agreement
    (exResult 200 [("server", "nginx")]) (exResult 200 [("server", "nginx")])
    rfl (by decide) rfl

/-- Counterexample for C1 as stated: equal status and agreement on every
compared header name do not suffice — a header outside the comparison set
with the `x-waf-` prefix yields a WAF diff, so `diff_results` is not
`none`. -/
theorem diff_results_agreement_counterexample :
    (exResult 200 [("x-waf-custom", "1")]).status = (exResult 200 []).status ∧
    COMPARE_HEADERS.all (fun n =>
      find_header (exResult 200 [("x-waf-custom", "1")]).headers n ==
        find_header (exResult 200 []).headers n) = true ∧
    diff_results (exResult 200 [("x-waf-custom", "1")]) (exResult 200 []) ≠ none := by
  decide

/-- The `get_waf_reason` loop is the priority search over `reasonHeaders`. -/
theorem firstReasonHeader_eq_find (headers : List (String × String)) :
    ∀ l : List String,
      firstReasonHeader headers l =
        (l.find? (fun h => (find_header headers h).isSome)).map
          (fun h => h ++ ": " ++ ((find_header headers h).getD "")) := by
  intro l
  induction l with
  | nil => rfl
  | cons h rest ih =>
    unfold firstReasonHeader
    cases hf : find_header headers h with
    | some v =>
      rw [List.find?_cons_of_pos]
      · simp [hf]
      · simp [hf]
    | none =>
      rw [List.find?_cons_of_neg]
      · exact ih
      · simp [hf]

/-- Every header name in the reason priority list carries a WAF signature
prefix. -/
theorem reasonHeader_has_waf_prefix (h : String) (hmem : h ∈ reasonHeaders) :
    (startsWithStr (asciiLower h) "x-waf-" || startsWithStr (asciiLower h) "x-blocked") = true := by
  simp only [reasonHeaders, List.mem_cons, List.not_mem_nil, or_false] at hmem
  rcases hmem with rfl | rfl | rfl | rfl <;> decide

/-- A result not classified as blocked has none of the reason headers: each
of them would itself trigger the header-prefix block check. -/
theorem firstReason_none_of_not_blocked (result : ReplayResult)
    (hb : is_waf_block result = false) :
    firstReasonHeader result.headers reasonHeaders = none := by
  rw [firstReasonHeader_eq_find]
  rw [Option.map_eq_none', List.find?_eq_none]
  intro h hmem
  intro hsome
  rcases Option.isSome_iff_exists.1 hsome with ⟨v, hv⟩
  rcases Option.map_eq_some'.1 hv with ⟨p, hfind, _⟩
  have hmemp : p ∈ result.headers := List.mem_of_find?_eq_some hfind
  have hpred : eqIgnoreAsciiCase p.1 h = true := by
    have := List.find?_some hfind
    simpa using this
  have heq : asciiLower p.1 = asciiLower h := by
    simpa [eqIgnoreAsciiCase] using hpred
  have hany : result.headers.any (fun p =>
      startsWithStr (asciiLower p.1) "x-waf-" || startsWithStr (asciiLower p.1) "x-blocked") = true := by
    refine List.any_eq_true.2 ⟨p, hmemp, ?_⟩
    rw [heq]
    exact reasonHeader_has_waf_prefix h hmem
  unfold is_waf_block at hb
  split at hb
  · exact absurd hb (by simp)
  · rw [hany] at hb
    exact absurd hb (by simp)

/-- C5 (amended): for a blocked outcome the reason is the first present
header among `x-waf-rule`, `x-waf-action`, `x-blocked-by`, `x-blocked` in
priority order, formatted `"<header>: <value>"`; when none is present the
reason is `"HTTP <status>"` if the status is 403, 429 or 503 and absent
otherwise (the otherwise case is forced by the counterexample: an outcome
blocked only by an unlisted `x-waf-` header has no reason); a non-blocked
outcome never has a reason. -/
theorem get_waf_reason_spec (result : ReplayResult) :
    (is_waf_block result = true →
      get_waf_reason result =
        match wafReasonSpec result with
        | some s => some s
        | none =>
          if result.status = 403 ∨ result.status = 429 ∨ result.status = 503 then
            some ("HTTP " ++ Nat.repr result.status)
          else none) ∧
    (is_waf_block result = false → get_waf_reason result = none) := by
  constructor
  · intro _
    unfold get_waf_reason wafReasonSpec
    rw [firstReasonHeader_eq_find]
  · intro hb
    unfold get_waf_reason
    rw [firstReason_none_of_not_blocked result hb]
    have hs : ¬(result.status = 403 ∨ result.status = 429 ∨ result.status = 503) := by
      intro hcon
      unfold is_waf_block at hb
      simp [hcon] at hb
    simp [hs]

/-- Witness for C5: a 403 with an `X-WAF-Rule` header gets that header as its
reason, case-insensitively and ahead of the status fallback. -/
theorem get_waf_reason_spec_witness :
    get_waf_reason (exResult 403 [("X-WAF-Rule", "942100")]) = some "x-waf-rule: 942100" := by
  have h := (get_waf_reason_spec (exResult 403 [("X-WAF-Rule", "942100")])).1 (by decide)
  rw [h]
  decide

/-- Counterexample for C5 as stated: an outcome blocked only via the
`x-waf-` prefix check, with none of the four reason headers present, has no
reason at all rather than `"HTTP <status>"`. -/
theorem get_waf_reason_counterexample :
    is_waf_block (exResult 200 [("x-waf-score", "10")]) = true ∧
    find_header (exResult 200 [("x-waf-score", "10")]).headers "x-waf-rule" = none ∧
    find_header (exResult 200 [("x-waf-score", "10")]).headers "x-waf-action" = none ∧
    find_header (exResult 200 [("x-waf-score", "10")]).headers "x-blocked-by" = none ∧
    find_header (exResult 200 [("x-waf-score", "10")]).headers "x-blocked" = none ∧
    get_waf_reason (exResult 200 [("x-waf-score", "10")]) = none := by
  decide

/-- A successful `replay_single` carries the index it was called with. -/
theorem replay_single_ok_request_index {request : CapturedRequest} {index : Nat}
    {target_url : Url} {config : ReplayConfig} {net : Option HttpResponse}
    {r : ReplayResult}
    (h : replay_single request index target_url config net = Except.ok r) :
    r.request_index = index := by
  unfold replay_single at h
  all_goals try split at h
  all_goals try split at h
  all_goals try split at h
  all_goals try split at h
  all_goals cases h
  all_goals rfl

/-- The record pushed for one request carries its index, on both the success
and the fallback path. -/
theorem replayRecord_request_index (request : CapturedRequest) (index : Nat)
    (target_url : Url) (config : ReplayConfig) (net : Option HttpResponse) :
    (replayRecord request index target_url config net).request_index = index := by
  unfold replayRecord
  cases hs : replay_single request index target_url config net with
  | ok rr => exact replay_single_ok_request_index hs
  | error e => rfl

/-- The replay loop produces one result per request. -/
theorem replayLoop_length (config : ReplayConfig) (target_url : Url) (net : Transport) :
    ∀ (reqs : List CapturedRequest) (index : Nat),
      (replayLoop config target_url net reqs index).1.length = reqs.length := by
  intro reqs
  induction reqs with
  | nil => intro idx; rfl
  | cons r rest ih =>
    intro idx
    simp [replayLoop, ih (idx + 1)]

/-- The replay loop's success and failure tallies sum to the request count:
every iteration increments exactly one of the two. -/
theorem replayLoop_counts (config : ReplayConfig) (target_url : Url) (net : Transport) :
    ∀ (reqs : List CapturedRequest) (index : Nat),
      (replayLoop config target_url net reqs index).2.1 +
        (replayLoop config target_url net reqs index).2.2.1 = reqs.length := by
  intro reqs
  induction reqs with
  | nil => intro idx; rfl
  | cons r rest ih =>
    intro idx
    have ih' := ih (idx + 1)
    simp only [replayLoop, List.length_cons]
    cases hs : replay_single r idx target_url config (net idx) with
    | ok rr =>
      cases he : rr.error.isSome <;> simp [he] <;> omega
    | error e =>
      simp
      omega

/-- The result at position `i` of the replay loop is the record of the `i`-th
request, replayed at index `index + i`. -/
theorem replayLoop_get (config : ReplayConfig) (target_url : Url) (net : Transport) :
    ∀ (reqs : List CapturedRequest) (index i : Nat) (req : CapturedRequest),
      reqs.get? i = some req →
      (replayLoop config target_url net reqs index).1.get? i =
        some (replayRecord req (index + i) target_url config (net (index + i))) := by
  intro reqs
  induction reqs with
  | nil =>
    intro idx i req h
    cases h
  | cons r rest ih =>
    intro idx i req h
    cases i with
    | zero =>
      simp only [List.get?_cons_zero] at h
      cases h
      simp [replayLoop]
    | succ n =>
      simp only [List.get?_cons_succ] at h
      have step := ih (idx + 1) n req h
      simp only [replayLoop, List.get?_cons_succ]
      rw [show idx + (n + 1) = idx + 1 + n from by omega]
      exact step

/-- C3: every session `replay` produces satisfies
`len(results) = total_requests`, `successful + failed = total_requests`, and
`results[i].request_index = i` for every index. -/
theorem replay_session_invariants
    (requests : List CapturedRequest) (target : String) (config : ReplayConfig)
    (net : Transport) (s : ReplaySession)
    (h : replay requests target config net = Except.ok s) :
    s.results.length = s.total_requests ∧
    s.successful + s.failed = s.total_requests ∧
    ∀ i r, s.results.get? i = some r → r.request_index = i := by
  unfold replay at h
  cases hp : Url.parse target with
  | none =>
    rw [hp] at h
    cases h
  | some target_url =>
    rw [hp] at h
    cases h
    refine ⟨replayLoop_length config target_url net requests 0,
      replayLoop_counts config target_url net requests 0, ?_⟩
    intro i r hr
    have hi : i < (replayLoop config target_url net requests 0).1.length := by
      by_contra hcon
      rw [List.get?_eq_none.2 (Nat.le_of_not_lt hcon)] at hr
      cases hr
    rw [replayLoop_length config target_url net requests 0] at hi
    have hreq := List.get?_eq_get hi
    rw [replayLoop_get config target_url net requests 0 i (requests.get ⟨i, hi⟩) hreq,
      Nat.zero_add] at hr
    cases hr
    exact replayRecord_request_index ..

/-- Witness for C3: a one-request session whose request fails at the
transport level. -/
theorem replay_session_invariants_witness :
    (sessionOf "https://b.com" [fallbackResult reqGET 0 urlB "Request failed"]).results.length =
      (sessionOf "https://b.com" [fallbackResult reqGET 0 urlB "Request failed"]).total_requests ∧
    (sessionOf "https://b.com" [fallbackResult reqGET 0 urlB "Request failed"]).successful +
      (sessionOf "https://b.com" [fallbackResult reqGET 0 urlB "Request failed"]).failed =
      (sessionOf "https://b.com" [fallbackResult reqGET 0 urlB "Request failed"]).total_requests ∧
    ∀ i r, (sessionOf "https://b.com" [fallbackResult reqGET 0 urlB "Request failed"]).results.get? i = some r →
      r.request_index = i := by
  have h := replay_session_invariants [reqGET] "https://b.com" ReplayConfig.default
    (fun _ => none)
    { target := "https://b.com", total_requests := 1, successful := 0, failed := 1,
      status_mismatches := 0, results := [fallbackResult reqGET 0 urlB "Request failed"] }
    (by rfl)
  simpa [sessionOf] using h

/-- C2: when `replay_single` fails for one request — transport failure,
invalid method, unparseable capture URL — `replay` still returns a completed
session, and that request's recorded result has status 0, no headers,
`status_match = false` and the error description. -/
theorem replay_isolates_single_failures
    (requests : List CapturedRequest) (target : String) (config : ReplayConfig)
    (net : Transport) (target_url : Url) (i : Nat) (req : CapturedRequest) (e : String)
    (hparse : Url.parse target = some target_url)
    (hreq : requests.get? i = some req)
    (hfail : replay_single req i target_url config (net i) = Except.error e) :
    ∃ s, replay requests target config net = Except.ok s ∧
      s.results.get? i = some (fallbackResult req i target_url e) ∧
      (fallbackResult req i target_url e).status = 0 ∧
      (fallbackResult req i target_url e).headers = [] ∧
      (fallbackResult req i target_url e).status_match = false ∧
      (fallbackResult req i target_url e).error = some e := by
  refine ⟨{ target := target, total_requests := requests.length,
            successful := (replayLoop config target_url net requests 0).2.1,
            failed := (replayLoop config target_url net requests 0).2.2.1,
            status_mismatches := (replayLoop config target_url net requests 0).2.2.2,
            results := (replayLoop config target_url net requests 0).1 },
          ?_, ?_, rfl, rfl, rfl, rfl⟩
  · unfold replay
    rw [hparse]
  · show (replayLoop config target_url net requests 0).1.get? i = _
    rw [replayLoop_get config target_url net requests 0 i req hreq, Nat.zero_add]
    unfold replayRecord
    rw [hfail]

/-- Witness for C2: a transport failure on a single GET is recorded as a
failed result inside a completed session. -/
theorem replay_isolates_single_failures_witness :
    ∃ s, replay [reqGET] "https://b.com" ReplayConfig.default (fun _ => none) = Except.ok s ∧
      s.results.get? 0 = some (fallbackResult reqGET 0 urlB "Request failed") ∧
      (fallbackResult reqGET 0 urlB "Request failed").status = 0 ∧
      (fallbackResult reqGET 0 urlB "Request failed").headers = [] ∧
      (fallbackResult reqGET 0 urlB "Request failed").status_match = false ∧
      (fallbackResult reqGET 0 urlB "Request failed").error = some "Request failed" :=
  replay_isolates_single_failures [reqGET] "https://b.com" ReplayConfig.default
    (fun _ => none) urlB 0 reqGET "Request failed" rfl rfl rfl

/-- C8 (amended): only an unparseable target URL aborts the whole session up
front; whenever the target parses, `replay` completes with a session covering
every request (per-request problems, including an invalid method or an
unparseable capture URL, are recorded in that request's result instead — see
the counterexample against the original claim). -/
theorem replay_abort_policy (requests : List CapturedRequest) (target : String)
    (config : ReplayConfig) (net : Transport) :
    (Url.parse target = none →
      replay requests target config net = Except.error "Invalid target URL") ∧
    (∀ target_url, Url.parse target = some target_url →
      ∃ s, replay requests target config net = Except.ok s ∧
        s.total_requests = requests.length) := by
  constructor
  · intro hp
    unfold replay
    rw [hp]
  · intro target_url hp
    refine ⟨{ target := target, total_requests := requests.length,
              successful := (replayLoop config target_url net requests 0).2.1,
              failed := (replayLoop config target_url net requests 0).2.2.1,
              status_mismatches := (replayLoop config target_url net requests 0).2.2.2,
              results := (replayLoop config target_url net requests 0).1 },
            ?_, rfl⟩
    unfold replay
    rw [hp]

/-- Witness for C8: an unparseable target aborts; a parseable one yields a
session even for an empty capture. -/
theorem replay_abort_policy_witness :
    (replay [] "nota url" ReplayConfig.default (fun _ => none) =
      Except.error "Invalid target URL") ∧
    (∃ s, replay [] "https://b.com" ReplayConfig.default (fun _ => none) = Except.ok s ∧
      s.total_requests = ([] : List CapturedRequest).length) :=
  ⟨(replay_abort_policy [] "nota url" ReplayConfig.default (fun _ => none)).1 rfl,
   (replay_abort_policy [] "https://b.com" ReplayConfig.default (fun _ => none)).2 urlB rfl⟩

/-- Counterexample for C8 as stated: a captured request with an invalid HTTP
method does not abort the session — `replay` returns a completed session that
records the failure in that request's result. -/
theorem replay_abort_policy_counterexample :
    replay [reqBadMethod] "https://b.com" ReplayConfig.default (fun _ => some resp200) =
      Except.ok
        { target := "https://b.com", total_requests := 1, successful := 0, failed := 1,
          status_mismatches := 0,
          results := [{ request_index := 0, method := "BAD METHOD", url := "https://b.com/p",
                        status := 0, headers := [], body_size := 0, duration_ms := 0,
                        expected_status := none, status_match := false,
                        error := some "Invalid HTTP method" }] } := by
  rfl

/-- One step of the `diff_sessions` loop, characterized by the per-index
descriptions. -/
theorem diffStep_eq (L R : List ReplayResult) (s : DiffState) (i : Nat) :
    diffStep L R s i =
      { diffs := s.diffs ++ (pairDiff L R i).toList
        identical := s.identical + (if pairIdentical L R i then 1 else 0)
        different := s.different + ((pairDiff L R i).toList).length
        status_diffs := s.status_diffs + (if pairStatusBump L R i then 1 else 0)
        header_diffs := s.header_diffs + (if pairHeaderBump L R i then 1 else 0)
        waf_diffs := s.waf_diffs + (if pairWafBump L R i then 1 else 0) } := by
  unfold diffStep pairDiff pairIdentical pairStatusBump pairHeaderBump pairWafBump
  cases hL : L.get? i <;> cases hR : R.get? i <;> dsimp only
  case none.none => simp
  case none.some r => simp
  case some.none l => simp
  case some.some l r =>
    cases hd : diff_results l r <;> dsimp only
    case none => simp
    case some d =>
      cases hdi : d.header_diffs.isEmpty <;> simp [hdi]

/-- Closed form of the `diff_sessions` fold over any index list. -/
theorem foldl_diffStep_eq (L R : List ReplayResult) :
    ∀ (idxs : List Nat) (s : DiffState),
      idxs.foldl (diffStep L R) s =
        { diffs := s.diffs ++ idxs.filterMap (pairDiff L R)
          identical := s.identical + idxs.countP (fun i => pairIdentical L R i)
          different := s.different + (idxs.filterMap (pairDiff L R)).length
          status_diffs := s.status_diffs + idxs.countP (fun i => pairStatusBump L R i)
          header_diffs := s.header_diffs + idxs.countP (fun i => pairHeaderBump L R i)
          waf_diffs := s.waf_diffs + idxs.countP (fun i => pairWafBump L R i) } := by
  intro idxs
  induction idxs with
  | nil => intro s; simp
  | cons i rest ih =>
    intro s
    rw [List.foldl_cons, diffStep_eq, ih]
    cases hd : pairDiff L R i <;>
      simp [List.filterMap_cons, List.countP_cons, hd, DiffState.mk.injEq,
        List.append_assoc] <;>
      omega

/-- The length of a `filterMap` counts the entries the function keeps. -/
theorem length_filterMap_countP {α β : Type} (f : α → Option β) :
    ∀ l : List α, (l.filterMap f).length = l.countP (fun a => (f a).isSome) := by
  intro l
  induction l with
  | nil => rfl
  | cons a rest ih =>
    rw [List.filterMap_cons, List.countP_cons]
    cases hf : f a <;> simp [hf, ih]

/-- Counting a stronger predicate counts at most as much. -/
theorem countP_le_of_imp {α : Type} (p q : α → Bool) :
    ∀ l : List α, (∀ a ∈ l, p a = true → q a = true) → l.countP p ≤ l.countP q := by
  intro l
  induction l with
  | nil => intro _; simp
  | cons a rest ih =>
    intro h
    have hr := ih (fun x hx => h x (List.mem_cons_of_mem _ hx))
    rw [List.countP_cons, List.countP_cons]
    cases hp : p a <;> cases hq : q a
    · simp [hp, hq]
      omega
    · simp [hp, hq]
      omega
    · exact absurd (h a (List.mem_cons_self ..) hp) (by simp [hq])
    · simp [hp, hq]
      omega

/-- Two pointwise exclusive-and-exhaustive predicates count up to the
length. -/
theorem countP_add_countP_of_exclusive {α : Type} (p q : α → Bool) :
    ∀ l : List α,
      (∀ a ∈ l, (p a = true ∧ q a = false) ∨ (p a = false ∧ q a = true)) →
      l.countP p + l.countP q = l.length := by
  intro l
  induction l with
  | nil => intro _; rfl
  | cons a rest ih =>
    intro h
    have hr := ih (fun x hx => h x (List.mem_cons_of_mem _ hx))
    rw [List.countP_cons, List.countP_cons, List.length_cons]
    rcases h a (List.mem_cons_self ..) with ⟨hp, hq⟩ | ⟨hp, hq⟩ <;>
      simp [hp, hq] <;> omega

/-- A status bump only happens at a pair that produced a diff. -/
theorem pairStatusBump_imp_isSome (L R : List ReplayResult) (i : Nat)
    (h : pairStatusBump L R i = true) : (pairDiff L R i).isSome = true := by
  unfold pairStatusBump at h
  unfold pairDiff
  split at h
  next l r heq1 heq2 =>
    rw [heq1, heq2]
    show (diff_results l r).isSome = true
    split at h
    next d heq3 =>
      rw [heq3]
      rfl
    · simp at h
  · simp at h

/-- A header bump only happens at a pair that produced a diff. -/
theorem pairHeaderBump_imp_isSome (L R : List ReplayResult) (i : Nat)
    (h : pairHeaderBump L R i = true) : (pairDiff L R i).isSome = true := by
  unfold pairHeaderBump at h
  unfold pairDiff
  split at h
  next l r heq1 heq2 =>
    rw [heq1, heq2]
    show (diff_results l r).isSome = true
    split at h
    next d heq3 =>
      rw [heq3]
      rfl
    · simp at h
  · simp at h

/-- A WAF bump only happens at a pair that produced a diff. -/
theorem pairWafBump_imp_isSome (L R : List ReplayResult) (i : Nat)
    (h : pairWafBump L R i = true) : (pairDiff L R i).isSome = true := by
  unfold pairWafBump at h
  unfold pairDiff
  split at h
  next l r heq1 heq2 =>
    rw [heq1, heq2]
    show (diff_results l r).isSome = true
    split at h
    next d heq3 =>
      rw [heq3]
      rfl
    · simp at h
  · simp at h

/-- Inside the compared range, every pair is counted as identical or yields a
diff, and never both. -/
theorem pairIdentical_pairDiff_exclusive (L R : List ReplayResult) (i : Nat)
    (h : i < max L.length R.length) :
    (pairIdentical L R i = true ∧ (pairDiff L R i).isSome = false) ∨
    (pairIdentical L R i = false ∧ (pairDiff L R i).isSome = true) := by
  have hpresent : L.get? i ≠ none ∨ R.get? i ≠ none := by
    rcases lt_max_iff.1 h with h1 | h1
    · left
      rw [Ne, List.get?_eq_none]
      omega
    · right
      rw [Ne, List.get?_eq_none]
      omega
  unfold pairIdentical pairDiff
  cases hL : L.get? i <;> cases hR : R.get? i <;> simp
  · rcases hpresent with hc | hc
    · exact hc hL
    · exact hc hR
  case some.some l r =>
    cases hd : diff_results l r <;> simp

/-- `diff_sessions`, in closed form over the index range. -/
theorem diff_sessions_closed_form (left right : ReplaySession) :
    diff_sessions left right =
      { left_target := left.target
        right_target := right.target
        total_requests := max left.results.length right.results.length
        identical := (List.range (max left.results.length right.results.length)).countP
          (fun i => pairIdentical left.results right.results i)
        different := ((List.range (max left.results.length right.results.length)).filterMap
          (pairDiff left.results right.results)).length
        status_diffs := (List.range (max left.results.length right.results.length)).countP
          (fun i => pairStatusBump left.results right.results i)
        header_diffs := (List.range (max left.results.length right.results.length)).countP
          (fun i => pairHeaderBump left.results right.results i)
        waf_diffs := (List.range (max left.results.length right.results.length)).countP
          (fun i => pairWafBump left.results right.results i)
        diffs := (List.range (max left.results.length right.results.length)).filterMap
          (pairDiff left.results right.results) } := by
  simp only [diff_sessions]
  rw [foldl_diffStep_eq]
  simp

/-- C7: every `DiffSummary` satisfies `status_diffs ≤ different`,
`header_diffs ≤ different`, `waf_diffs ≤ different` and
`identical + different = total_requests`. -/
theorem diff_summary_invariants (left right : ReplaySession) :
    (diff_sessions left right).status_diffs ≤ (diff_sessions left right).different ∧
    (diff_sessions left right).header_diffs ≤ (diff_sessions left right).different ∧
    (diff_sessions left right).waf_diffs ≤ (diff_sessions left right).different ∧
    (diff_sessions left right).identical + (diff_sessions left right).different =
      (diff_sessions left right).total_requests := by
  rw [diff_sessions_closed_form]
  dsimp only
  refine ⟨?_, ?_, ?_, ?_⟩
  · rw [length_filterMap_countP]
    exact countP_le_of_imp _ _ _
      (fun i _ hi => pairStatusBump_imp_isSome left.results right.results i hi)
  · rw [length_filterMap_countP]
    exact countP_le_of_imp _ _ _
      (fun i _ hi => pairHeaderBump_imp_isSome left.results right.results i hi)
  · rw [length_filterMap_countP]
    exact countP_le_of_imp _ _ _
      (fun i _ hi => pairWafBump_imp_isSome left.results right.results i hi)
  · rw [length_filterMap_countP]
    have hx := countP_add_countP_of_exclusive
      (fun i => pairIdentical left.results right.results i)
      (fun a => (pairDiff left.results right.results a).isSome)
      (List.range (max left.results.length right.results.length))
      (fun i hi =>
        pairIdentical_pairDiff_exclusive left.results right.results i (List.mem_range.1 hi))
    rw [hx, List.length_range]

/-- C10: the `diffs` list of a `DiffSummary` enumerates, in ascending order
of pair index over `0 .. max(len left, len right) - 1`, exactly the pairs
that differ, and its length is the `different` tally. -/
theorem diff_sessions_diffs_enumeration (left right : ReplaySession) :
    (diff_sessions left right).diffs =
      (List.range (diff_sessions left right).total_requests).filterMap
        (pairDiff left.results right.results) ∧
    (diff_sessions left right).diffs.length = (diff_sessions left right).different := by
  rw [diff_sessions_closed_form]
  exact ⟨rfl, rfl⟩

/-- C9: an index present on only one side yields a `RequestDiff` that
carries only the status diff with sentinel 0 on the missing side — its
header-diff list is empty and its WAF diff absent (regardless of any WAF
classification of the present side) — and that diff is in the summary. -/
theorem diff_sessions_one_sided (left right : ReplaySession) (i : Nat) :
    (∀ l, left.results.get? i = some l → right.results.get? i = none →
      pairDiff left.results right.results i =
        some { request_index := i, method := l.method, url := l.url,
               status_diff := some { left := l.status, right := 0 },
               header_diffs := [], waf_diff := none } ∧
      { request_index := i, method := l.method, url := l.url,
        status_diff := some { left := l.status, right := 0 },
        header_diffs := [], waf_diff := none } ∈ (diff_sessions left right).diffs) ∧
    (∀ r, left.results.get? i = none → right.results.get? i = some r →
      pairDiff left.results right.results i =
        some { request_index := i, method := r.method, url := r.url,
               status_diff := some { left := 0, right := r.status },
               header_diffs := [], waf_diff := none } ∧
      { request_index := i, method := r.method, url := r.url,
        status_diff := some { left := 0, right := r.status },
        header_diffs := [], waf_diff := none } ∈ (diff_sessions left right).diffs) := by
  constructor
  · intro l hL hR
    have hpd : pairDiff left.results right.results i =
        some { request_index := i, method := l.method, url := l.url,
               status_diff := some { left := l.status, right := 0 },
               header_diffs := [], waf_diff := none } := by
      unfold pairDiff
      rw [hL, hR]
    refine ⟨hpd, ?_⟩
    rw [diff_sessions_closed_form]
    refine List.mem_filterMap.2 ⟨i, ?_, hpd⟩
    refine List.mem_range.2 (lt_max_iff.2 (Or.inl ?_))
    by_contra hc
    rw [List.get?_eq_none.2 (Nat.le_of_not_lt hc)] at hL
    cases hL
  · intro r hL hR
    have hpd : pairDiff left.results right.results i =
        some { request_index := i, method := r.method, url := r.url,
               status_diff := some { left := 0, right := r.status },
               header_diffs := [], waf_diff := none } := by
      unfold pairDiff
      rw [hL, hR]
    refine ⟨hpd, ?_⟩
    rw [diff_sessions_closed_form]
    refine List.mem_filterMap.2 ⟨i, ?_, hpd⟩
    refine List.mem_range.2 (lt_max_iff.2 (Or.inr ?_))
    by_contra hc
    rw [List.get?_eq_none.2 (Nat.le_of_not_lt hc)] at hR
    cases hR

/-- Witness for C9: a left session with one WAF-blocked result against an
empty right session — the one-sided diff still has no header diffs and no
WAF diff. -/
theorem diff_sessions_one_sided_witness :
    pairDiff (sessionOf "https://left.example" [exResult 403 [("x-waf-rule", "942100")]]).results
        (sessionOf "https://right.example" []).results 0 =
      some { request_index := 0, method := "GET", url := "https://example.com/test",
             status_diff := some { left := 403, right := 0 },
             header_diffs := [], waf_diff := none } ∧
    { request_index := 0, method := "GET", url := "https://example.com/test",
      status_diff := some { left := 403, right := 0 },
      header_diffs := [], waf_diff := none } ∈
      (diff_sessions (sessionOf "https://left.example" [exResult 403 [("x-waf-rule", "942100")]])
        (sessionOf "https://right.example" [])).diffs :=
  (diff_sessions_one_sided
    (sessionOf "https://left.example" [exResult 403 [("x-waf-rule", "942100")]])
    (sessionOf "https://right.example" []) 0).1
    (exResult 403 [("x-waf-rule", "942100")]) rfl rfl

end Ushio
